import Mathlib

/-!
Verification of the diffbase-resolution core of `ci-diff-helper`.

The Python modules `ci_diff_helper/travis.py`, `ci_diff_helper/_config_base.py`,
`ci_diff_helper/_utils.py`, `ci_diff_helper/_github.py` and
`ci_diff_helper/__init__.py` are shallowly embedded below.  External effects
(environment variables, `git` subprocesses, the GitHub HTTP client) are
modelled by a `World` of oracles; every embedded operation additionally
returns a `Trace` recording which effects it performed, so that claims such
as "no HTTP call is made" are expressible.  Python exceptions are modelled
by `Except PyError`.
-/

/-- Python exception kinds raised by the embedded code, with their messages. -/
inductive PyError where
  | osError (msg : String)
  | valueError (msg : String)
  | keyError (msg : String)
  | notImplementedError
  | httpError (msg : String)
deriving DecidableEq

deriving instance DecidableEq for Except

/-- The `_utils.UNSET` sentinel pattern: a cache slot is either unset or
holds a value. -/
inductive Cached (α : Type) where
  | unset : Cached α
  | val : α → Cached α
deriving DecidableEq

/-- An environment-variable map, modelling `os.environ` / `os.getenv`. -/
def EnvMap : Type := String → Option String

/-- The JSON payload of the GitHub compare endpoint, restricted to the one
nested field `merge_base_commit -> sha` that `travis.py` reads; `none`
models the key being absent from the payload. -/
structure GHPayload where
  merge_base_commit_sha : Option String
deriving DecidableEq

/-- The external world: environment variables, `git` probe oracles and the
GitHub compare client.  `revParse` and `mergeBase` model
`_utils.check_output('git', ..., ignore_err=True)`, where `none` is a
swallowed `CalledProcessError`.  `mergeCommit` and `commitSubject` model
`git_tools.merge_commit()` / `git_tools.commit_subject()` on `HEAD`.
`compare` models `_github.commit_compare`; an `error` is an HTTP failure
raised after the request was made. -/
structure World where
  envm : EnvMap
  revParse : String → Option String
  mergeBase : String → String → Option String
  mergeCommit : Bool
  commitSubject : String
  compare : String → String → String → Except PyError GHPayload

/-- Count of external effects performed by an embedded operation: number of
environment reads, of each `git` subprocess kind, and the argument list of
GitHub compare HTTP calls (in order). -/
structure Trace where
  env : Nat := 0
  revParse : Nat := 0
  mergeBase : Nat := 0
  mergeCommit : Nat := 0
  subject : Nat := 0
  http : List (String × String × String) := []
deriving DecidableEq

/-- The empty trace: no external effect. -/
def Trace.none : Trace := {}

/-- A single environment read. -/
def Trace.env1 : Trace := { env := 1 }

/-- Sequential composition of effect traces. -/
def Trace.add (a b : Trace) : Trace :=
  { env := a.env + b.env
    revParse := a.revParse + b.revParse
    mergeBase := a.mergeBase + b.mergeBase
    mergeCommit := a.mergeCommit + b.mergeCommit
    subject := a.subject + b.subject
    http := a.http ++ b.http }

/-! Environment-variable names from `ci_diff_helper/environment_vars.py`. -/

def IN_TRAVIS : String := "TRAVIS"

def TRAVIS_PR : String := "TRAVIS_PULL_REQUEST"

def TRAVIS_BRANCH : String := "TRAVIS_BRANCH"

def TRAVIS_EVENT_TYPE : String := "TRAVIS_EVENT_TYPE"

def TRAVIS_RANGE : String := "TRAVIS_COMMIT_RANGE"

def TRAVIS_SLUG : String := "TRAVIS_REPO_SLUG"

def TRAVIS_TAG : String := "TRAVIS_TAG"

def IN_APPVEYOR : String := "APPVEYOR"

def APPVEYOR_BRANCH : String := "APPVEYOR_REPO_BRANCH"

def APPVEYOR_TAG : String := "APPVEYOR_REPO_TAG_NAME"

def IN_CIRCLE_CI : String := "CIRCLECI"

def CIRCLE_CI_BRANCH : String := "CIRCLE_BRANCH"

def CIRCLE_CI_TAG : String := "CIRCLE_TAG"

def splitDotsAux : List Char → List Char → Nat → List (List Char)
  | [], acc, pend => [acc.reverse ++ List.replicate pend '.']
  | c :: rest, acc, pend =>
    if c = '.' then
      if pend = 2 then acc.reverse :: splitDotsAux rest [] 0
      else splitDotsAux rest acc (pend + 1)
    else splitDotsAux rest (c :: (List.replicate pend '.' ++ acc)) 0

/-- Python's `s.split('...')` on a list of characters: non-overlapping,
leftmost-first occurrences of the three-dot delimiter split the string;
`""` splits to `[""]`.  Implemented as a left-to-right scan holding the
current (reversed) part and the number of pending delimiter dots seen. -/
def splitDots (l : List Char) : List (List Char) := splitDotsAux l [] 0

/-- Whether a list of characters contains the `...` delimiter. -/
def containsDots : List Char → Bool
  | [] => false
  | c :: rest =>
    (decide (c = '.' ∧ rest.take 2 = ['.', '.'])) || containsDots rest

/-- `travis.TravisEventType`: all possible Travis event types. -/
inductive TravisEventType where
  | push
  | pull_request
  | api
  | cron
deriving DecidableEq

/-- Decode the `TRAVIS_EVENT_TYPE` value into the enum, as
`TravisEventType(event_env)` does (`none` models `ValueError`). -/
def TravisEventType.ofString? : String → Option TravisEventType
  | "push" => some .push
  | "pull_request" => some .pull_request
  | "api" => some .api
  | "cron" => some .cron
  | _ => none

/-- `travis._travis_event_type`: read and decode `TRAVIS_EVENT_TYPE`;
an unrecognized value raises `ValueError`. -/
def _travis_event_type (envm : EnvMap) : Except PyError TravisEventType :=
  match TravisEventType.ofString? ((envm TRAVIS_EVENT_TYPE).getD "") with
  | some t => .ok t
  | none => .error (.valueError "Invalid event type")

/-- The value of a decimal digit list, most significant first
(`int` applied to an all-digit string). -/
def digitsVal (l : List Char) : Nat :=
  l.foldl (fun acc c => 10 * acc + (c.toNat - Char.toNat '0')) 0

/-- Python `int(s)` restricted to the shapes this code feeds it (an
optional sign followed by ASCII digits, e.g. `"1234"`, or a non-numeric
value such as `"false"` or `""` which raises `ValueError`, modelled by
`none`). -/
def pyInt? (s : String) : Option Int :=
  match s.toList with
  | [] => none
  | '+' :: rest =>
    if rest ≠ [] ∧ rest.all Char.isDigit then some (digitsVal rest) else none
  | '-' :: rest =>
    if rest ≠ [] ∧ rest.all Char.isDigit then some (-(digitsVal rest : Int))
    else none
  | l =>
    if l.all Char.isDigit then some (digitsVal l) else none

/-- `travis._travis_pr`: `int(os.getenv(TRAVIS_PR, ''))`, with
`ValueError` caught and turned into `None`. -/
def _travis_pr (envm : EnvMap) : Option Int :=
  pyInt? ((envm TRAVIS_PR).getD "")

/-- `travis._get_commit_range`, split into the pure part: split the raw
`TRAVIS_COMMIT_RANGE` value on `'...'`; a split that does not produce
exactly a `start, finish` pair is a `ValueError` re-raised as `OSError`. -/
def parseCommitRange (commit_range : String) : Except PyError (String × String) :=
  match splitDots commit_range.toList with
  | [start, finish] => .ok (String.mk start, String.mk finish)
  | _ => .error (.osError "Commit range in unexpected format")

/-- `travis._get_commit_range`: read `TRAVIS_COMMIT_RANGE` (one
environment read, accounted by the caller) and split it. -/
def _get_commit_range (envm : EnvMap) : Except PyError (String × String) :=
  parseCommitRange ((envm TRAVIS_RANGE).getD "")

/-- `travis._verify_merge_base`: run `git merge-base start finish` with
errors swallowed to `none`, and require the result to equal `start`
(a `none` result or any other string raises `ValueError`).  The single
`mergeBase` subprocess call is accounted by the caller. -/
def _verify_merge_base (w : World) (start finish : String) : Except PyError Unit :=
  if w.mergeBase start finish = some start then .ok ()
  else .error (.valueError "git merge base is not the start commit in range")

/-- `travis._get_merge_base_from_github`: one `commit_compare` HTTP call
(accounted by the caller); a missing `merge_base_commit -> sha` field in a
successful payload raises `KeyError`; an HTTP failure propagates. -/
def _get_merge_base_from_github (w : World) (slug start finish : String) :
    Except PyError String :=
  match w.compare slug start finish with
  | .error e => .error e
  | .ok payload =>
    match payload.merge_base_commit_sha with
    | some sha => .ok sha
    | none => .error (.keyError "Missing key in the GitHub API payload")

/-- `travis._push_build_base`: parse the commit range, resolve `start`
with `git rev-parse` (errors swallowed to `none`); on success verify the
merge base, on a `none` result fall back to the GitHub compare API.  The
trace records the environment read, the subprocess calls and the HTTP
calls actually performed on each path. -/
def _push_build_base (w : World) (slug : String) : Except PyError String × Trace :=
  match _get_commit_range w.envm with
  | .error e => (.error e, Trace.env1)
  | .ok (start, finish) =>
    match w.revParse start with
    | none =>
      (_get_merge_base_from_github w slug start finish,
        { env := 1, revParse := 1, http := [(slug, start, finish)] })
    | some start_full =>
      match _verify_merge_base w start_full finish with
      | .ok _ => (.ok start_full, { env := 1, revParse := 1, mergeBase := 1 })
      | .error e => (.error e, { env := 1, revParse := 1, mergeBase := 1 })

/-- `travis._travis_slug`: `os.environ[TRAVIS_SLUG]`, with the `KeyError`
re-raised as `OSError`. -/
def _travis_slug (envm : EnvMap) : Except PyError String :=
  match envm TRAVIS_SLUG with
  | some s => .ok s
  | none => .error (.osError "Travis build does not have a repo slug set")

/-- `_utils._PR_ID_REGEX.findall`: all non-overlapping matches of
`#(\d+)` in a subject, left to right, each returned as its (maximal,
nonempty) digit-group characters. -/
def findPRaux : List Char → Option (List Char) → List (List Char)
  | [], st =>
    match st with
    | some acc => if acc = [] then [] else [acc.reverse]
    | none => []
  | c :: rest, st =>
    match st with
    | some acc =>
      if c.isDigit then findPRaux rest (some (c :: acc))
      else if acc = [] then
        if c = '#' then findPRaux rest (some [])
        else findPRaux rest none
      else
        if c = '#' then acc.reverse :: findPRaux rest (some [])
        else acc.reverse :: findPRaux rest none
    | none =>
      if c = '#' then findPRaux rest (some [])
      else findPRaux rest none

/-- `_utils._PR_ID_REGEX.findall` as a left-to-right scan.  The state is
`none` outside a candidate match, and `some acc` just past a `'#'` with
the (reversed) digits accumulated so far; a completed nonempty digit
group is one `#(\d+)` match. -/
def findPRrefs (l : List Char) : List (List Char) :=
  findPRaux l none

/-- `_utils.pr_from_commit`: the PR ID of a merge-commit subject; the
integer value of the unique `#(\d+)` match, or `None` when the number of
matches is not exactly one. -/
def pr_from_commit (merge_subject : String) : Option Nat :=
  match findPRrefs merge_subject.toList with
  | [ds] => some (digitsVal ds)
  | _ => none

/-- Python `str.lower()` on the ASCII values this code compares:
per-character lowercasing. -/
def pyLower (s : String) : String := String.mk (s.toList.map Char.toLower)

/-- `_config_base._in_ci`: the active-flag variable equals `"true"`
case-insensitively (absent reads as `""`). -/
def _in_ci (envm : EnvMap) (env_var : String) : Bool :=
  pyLower ((envm env_var).getD "") = "true"

/-- `_config_base._ci_branch`: `os.environ[env_var]`, with the `KeyError`
re-raised as `OSError`. -/
def _ci_branch (envm : EnvMap) (env_var : String) : Except PyError String :=
  match envm env_var with
  | some v => .ok v
  | none => .error (.osError "Build does not have an associated branch set")

/-- The cached instance attributes of a `Travis` configuration object
(those of the `_config_base.Config` base class plus the `Travis`
subclass), each initially the `UNSET` sentinel. -/
structure TravisState where
  _active : Cached Bool := .unset
  _branch : Cached String := .unset
  _is_merge : Cached Bool := .unset
  _tag : Cached (Option String) := .unset
  _base : Cached String := .unset
  _event_type : Cached TravisEventType := .unset
  _merged_pr : Cached (Option Nat) := .unset
  _pr : Cached (Option Int) := .unset
  _slug : Cached String := .unset
deriving DecidableEq

/-- A freshly constructed configuration object: every slot `UNSET`. -/
def freshTravisState : TravisState := {}

/-- The result of accessing a property of a configuration object: the
returned value or raised exception, the object's state afterwards, and
the external effects performed. -/
abbrev PropResult (α : Type) : Type := Except PyError α × TravisState × Trace

/-- `Config.active` (instantiated with the provider's active-flag
variable): memoized `_in_ci`. -/
def Config.active (active_env_var : String) (w : World) (s : TravisState) :
    PropResult Bool :=
  match s._active with
  | .val v => (.ok v, s, Trace.none)
  | .unset =>
    let v := _in_ci w.envm active_env_var
    (.ok v, { s with _active := .val v }, Trace.env1)

/-- `Config.branch` (instantiated with the provider's branch variable):
memoized `_ci_branch`. -/
def Config.branch (branch_env_var : String) (w : World) (s : TravisState) :
    PropResult String :=
  match s._branch with
  | .val v => (.ok v, s, Trace.none)
  | .unset =>
    match _ci_branch w.envm branch_env_var with
    | .ok v => (.ok v, { s with _branch := .val v }, Trace.env1)
    | .error e => (.error e, s, Trace.env1)

/-- `Config.is_merge`: memoized `git_tools.merge_commit()` probe. -/
def Config.is_merge (w : World) (s : TravisState) : PropResult Bool :=
  match s._is_merge with
  | .val v => (.ok v, s, Trace.none)
  | .unset =>
    (.ok w.mergeCommit, { s with _is_merge := .val w.mergeCommit },
      { mergeCommit := 1 })

/-- `Config.tag` (instantiated with the provider's tag variable):
memoized read normalizing the empty string to `None`. -/
def Config.tag (tag_env_var : String) (w : World) (s : TravisState) :
    PropResult (Option String) :=
  match s._tag with
  | .val v => (.ok v, s, Trace.none)
  | .unset =>
    let tag_val := (w.envm tag_env_var).getD ""
    let v : Option String := if tag_val = "" then none else some tag_val
    (.ok v, { s with _tag := .val v }, Trace.env1)

/-- `Travis.active`: the base-class property with `IN_TRAVIS`. -/
def Travis.active (w : World) (s : TravisState) : PropResult Bool :=
  Config.active IN_TRAVIS w s

/-- `Travis.branch`: the base-class property with `TRAVIS_BRANCH`. -/
def Travis.branch (w : World) (s : TravisState) : PropResult String :=
  Config.branch TRAVIS_BRANCH w s

/-- `Travis.is_merge`: the base-class property. -/
def Travis.is_merge (w : World) (s : TravisState) : PropResult Bool :=
  Config.is_merge w s

/-- `Travis.tag`: the base-class property with `TRAVIS_TAG`. -/
def Travis.tag (w : World) (s : TravisState) : PropResult (Option String) :=
  Config.tag TRAVIS_TAG w s

/-- `Travis.event_type`: memoized `_travis_event_type`. -/
def Travis.event_type (w : World) (s : TravisState) :
    PropResult TravisEventType :=
  match s._event_type with
  | .val v => (.ok v, s, Trace.none)
  | .unset =>
    match _travis_event_type w.envm with
    | .ok v => (.ok v, { s with _event_type := .val v }, Trace.env1)
    | .error e => (.error e, s, Trace.env1)

/-- `Travis.pr`: memoized `_travis_pr`. -/
def Travis.pr (w : World) (s : TravisState) : PropResult (Option Int) :=
  match s._pr with
  | .val v => (.ok v, s, Trace.none)
  | .unset =>
    let v := _travis_pr w.envm
    (.ok v, { s with _pr := .val v }, Trace.env1)

/-- `Travis.slug`: memoized `_travis_slug`. -/
def Travis.slug (w : World) (s : TravisState) : PropResult String :=
  match s._slug with
  | .val v => (.ok v, s, Trace.none)
  | .unset =>
    match _travis_slug w.envm with
    | .ok v => (.ok v, { s with _slug := .val v }, Trace.env1)
    | .error e => (.error e, s, Trace.env1)

/-- `Travis.base`: memoized diffbase.  `in_pr` (an `event_type` access)
selects the branch for pull-request builds; push builds go through
`self.slug` and `_push_build_base`; any other event type raises
`NotImplementedError`. -/
def Travis.base (w : World) (s : TravisState) : PropResult String :=
  match s._base with
  | .val v => (.ok v, s, Trace.none)
  | .unset =>
    match Travis.event_type w s with
    | (.error e, s1, t1) => (.error e, s1, t1)
    | (.ok et, s1, t1) =>
      if et = TravisEventType.pull_request then
        match Travis.branch w s1 with
        | (.ok b, s2, t2) =>
          (.ok b, { s2 with _base := .val b }, t1.add t2)
        | (.error e, s2, t2) => (.error e, s2, t1.add t2)
      else if et = TravisEventType.push then
        match Travis.slug w s1 with
        | (.ok slug, s2, t2) =>
          match _push_build_base w slug with
          | (.ok v, t3) =>
            (.ok v, { s2 with _base := .val v }, (t1.add t2).add t3)
          | (.error e, t3) => (.error e, s2, (t1.add t2).add t3)
        | (.error e, s2, t2) => (.error e, s2, t1.add t2)
      else (.error .notImplementedError, s1, t1)

/-- `Travis.merged_pr`: memoized merged-PR extraction.  Pull-request
builds yield `None`; push builds probe `merge_commit()` and, only when it
holds, fetch the commit subject and run `pr_from_commit`; any other event
type raises `NotImplementedError`. -/
def Travis.merged_pr (w : World) (s : TravisState) : PropResult (Option Nat) :=
  match s._merged_pr with
  | .val v => (.ok v, s, Trace.none)
  | .unset =>
    match Travis.event_type w s with
    | (.error e, s1, t1) => (.error e, s1, t1)
    | (.ok et, s1, t1) =>
      if et = TravisEventType.pull_request then
        (.ok none, { s1 with _merged_pr := .val none }, t1)
      else if et = TravisEventType.push then
        if w.mergeCommit then
          let v := pr_from_commit w.commitSubject
          (.ok v, { s1 with _merged_pr := .val v },
            t1.add { mergeCommit := 1, subject := 1 })
        else
          (.ok none, { s1 with _merged_pr := .val none },
            t1.add { mergeCommit := 1 })
      else (.error .notImplementedError, s1, t1)

/-- The three provider classes instantiated by `get_config`, in the order
`__init__.get_config` constructs them. -/
inductive ProviderKind where
  | appveyor
  | circleci
  | travis
deriving DecidableEq

/-- The active-flag environment variable backing each provider's
`active` property (`_active_env_var`). -/
def activeEnvVar : ProviderKind → String
  | .appveyor => IN_APPVEYOR
  | .circleci => IN_CIRCLE_CI
  | .travis => IN_TRAVIS

/-- `__init__.get_config`: build the three fresh provider objects, keep
those whose `active` property holds (a fresh object's `active` is
`_in_ci` of its flag variable), and require exactly one; otherwise raise
`OSError`. -/
def get_config (w : World) : Except PyError ProviderKind :=
  let choices : List ProviderKind := [.appveyor, .circleci, .travis]
  let current := choices.filter (fun k => _in_ci w.envm (activeEnvVar k))
  match current with
  | [k] => .ok k
  | _ => .error (.osError "Could not find unique environment")

/-- The lowercase hexadecimal digits of a `git` SHA. -/
def hexDigits : List Char := "0123456789abcdef".toList

theorem splitDotsAux_nodot (l acc : List Char) (h : ∀ c ∈ l, c ≠ '.') :
    splitDotsAux l acc 0 = [acc.reverse ++ l] := by
  induction l generalizing acc with
  | nil => simp [splitDotsAux]
  | cons c rest ih =>
    have hc : c ≠ '.' := h c (List.mem_cons_self c rest)
    have hrest : ∀ d ∈ rest, d ≠ '.' :=
      fun d hd => h d (List.mem_cons_of_mem c hd)
    rw [splitDotsAux, if_neg hc]
    rw [ih _ hrest]
    simp

theorem splitDots_nodot (l : List Char) (h : ∀ c ∈ l, c ≠ '.') :
    splitDots l = [l] := by
  rw [splitDots, splitDotsAux_nodot l [] h]
  simp

theorem splitDotsAux_append_dots (l m acc : List Char)
    (h : ∀ c ∈ l, c ≠ '.') :
    splitDotsAux (l ++ '.' :: '.' :: '.' :: m) acc 0 =
      (acc.reverse ++ l) :: splitDotsAux m [] 0 := by
  induction l generalizing acc with
  | nil =>
    rw [List.nil_append]
    rw [splitDotsAux, if_pos rfl, if_neg (by decide)]
    rw [splitDotsAux, if_pos rfl, if_neg (by decide)]
    rw [splitDotsAux, if_pos rfl, if_pos rfl]
    simp
  | cons c rest ih =>
    have hc : c ≠ '.' := h c (List.mem_cons_self c rest)
    have hrest : ∀ d ∈ rest, d ≠ '.' :=
      fun d hd => h d (List.mem_cons_of_mem c hd)
    rw [List.cons_append, splitDotsAux, if_neg hc]
    rw [ih _ hrest]
    simp

theorem splitDots_append_dots (l m : List Char) (h : ∀ c ∈ l, c ≠ '.') :
    splitDots (l ++ '.' :: '.' :: '.' :: m) = l :: splitDots m := by
  rw [splitDots, splitDotsAux_append_dots l m [] h, splitDots]
  simp

theorem containsDots_cons_false (c : Char) (l : List Char)
    (h : containsDots (c :: l) = false) : containsDots l = false := by
  rw [containsDots, Bool.or_eq_false_iff] at h
  exact h.2

theorem containsDots_append_false (a b : List Char)
    (h : containsDots (a ++ b) = false) : containsDots b = false := by
  induction a with
  | nil => simpa using h
  | cons c rest ih =>
    exact ih (containsDots_cons_false c _ (by simpa using h))

theorem splitDotsAux_nosep (l : List Char) (acc : List Char) (pend : Nat)
    (hp : pend ≤ 2)
    (h : containsDots (List.replicate pend '.' ++ l) = false) :
    splitDotsAux l acc pend =
      [acc.reverse ++ List.replicate pend '.' ++ l] := by
  induction l generalizing acc pend with
  | nil => simp [splitDotsAux]
  | cons c rest ih =>
    by_cases hc : c = '.'
    · subst hc
      rcases Nat.lt_or_ge pend 2 with hlt | hge
      · rw [splitDotsAux, if_pos rfl, if_neg (Nat.ne_of_lt hlt)]
        have hrepl : List.replicate pend '.' ++ '.' :: rest =
            List.replicate (pend + 1) '.' ++ rest := by
          rw [List.replicate_succ']
          simp
        rw [hrepl] at h
        rw [ih _ (pend + 1) (by omega) h]
        simp only [List.append_assoc]
        rw [hrepl]
      · have hp2 : pend = 2 := Nat.le_antisymm hp hge
        subst hp2
        exfalso
        have : containsDots ('.' :: '.' :: '.' :: rest) = false := by
          simpa using h
        rw [containsDots] at this
        simp at this
    · rw [splitDotsAux, if_neg hc]
      have hrest : containsDots rest = false :=
        containsDots_cons_false c rest (containsDots_append_false _ _ h)
      rw [ih _ 0 (by omega) (by simpa using hrest)]
      simp

theorem containsDots_false_split (l : List Char) (h : containsDots l = false) :
    splitDots l = [l] := by
  rw [splitDots, splitDotsAux_nosep l [] 0 (by omega) (by simpa using h)]
  simp

theorem hex_ne_dot (c : Char) (hc : c ∈ hexDigits) : c ≠ '.' := by
  intro he
  rw [he] at hc
  exact absurd hc (by decide)

/-- C6: a commit range of the form `{40-hex}...{40-hex}` parses to
exactly the pair of its two SHA components; a range value that lacks the
`...` delimiter — the empty string included — raises the malformed-range
`OSError` rather than producing any default pair. -/
theorem commit_range_parse_spec :
    (∀ a b : List Char, a.length = 40 → b.length = 40 →
        (∀ c ∈ a, c ∈ hexDigits) → (∀ c ∈ b, c ∈ hexDigits) →
        parseCommitRange (String.mk (a ++ '.' :: '.' :: '.' :: b)) =
          .ok (String.mk a, String.mk b))
    ∧ (∀ s : String, containsDots s.toList = false →
        parseCommitRange s =
          .error (.osError "Commit range in unexpected format"))
    ∧ parseCommitRange "" =
        .error (.osError "Commit range in unexpected format") := by
  refine ⟨?_, ?_, ?_⟩
  · intro a b _ _ ha hb
    have hna : ∀ c ∈ a, c ≠ '.' := fun c hc => hex_ne_dot c (ha c hc)
    have hnb : ∀ c ∈ b, c ≠ '.' := fun c hc => hex_ne_dot c (hb c hc)
    have htl : (String.mk (a ++ '.' :: '.' :: '.' :: b)).toList =
        a ++ '.' :: '.' :: '.' :: b := rfl
    rw [parseCommitRange, htl, splitDots_append_dots a b hna,
      splitDots_nodot b hnb]
  · intro s hs
    rw [parseCommitRange, containsDots_false_split s.toList hs]
  · rfl

/-- C6 witness: the generic parse theorem applied to a concrete 40-hex
pair and to the concrete empty string. -/
theorem commit_range_parse_spec_wit :
    parseCommitRange (String.mk
        (List.replicate 40 'a' ++ '.' :: '.' :: '.' :: List.replicate 40 'b')) =
      .ok (String.mk (List.replicate 40 'a'), String.mk (List.replicate 40 'b'))
    ∧ parseCommitRange "nodots" =
        .error (.osError "Commit range in unexpected format") :=
  ⟨commit_range_parse_spec.1 (List.replicate 40 'a') (List.replicate 40 'b')
      (by decide) (by decide) (by decide) (by decide),
    commit_range_parse_spec.2.1 "nodots" (by decide)⟩

/-- C9: a range value with more than one `...` delimiter also fails to
parse (concretely, `"a...b...c"` raises the malformed-range `OSError`);
in general the parse succeeds exactly when splitting on `...` yields two
parts. -/
theorem commit_range_two_parts_spec :
    parseCommitRange "a...b...c" =
      .error (.osError "Commit range in unexpected format")
    ∧ ∀ s : String,
        (∃ p, parseCommitRange s = .ok p) ↔ (splitDots s.toList).length = 2 := by
  constructor
  · rfl
  · intro s
    rcases h : splitDots s.data with _ | ⟨x, _ | ⟨y, _ | ⟨z, t⟩⟩⟩ <;>
      simp [parseCommitRange, String.toList, h]

/-- C9 witness: the characterization applied to a concrete well-formed
range. -/
theorem commit_range_two_parts_spec_wit :
    (∃ p, parseCommitRange "x...y" = .ok p) ∧
      (splitDots ("x...y" : String).toList).length = 2 :=
  ⟨(commit_range_two_parts_spec.2 "x...y").mpr (by decide), by decide⟩

theorem event_type_fresh_push (w : World)
    (hev : w.envm TRAVIS_EVENT_TYPE = some "push") :
    Travis.event_type w freshTravisState =
      (.ok .push, { freshTravisState with _event_type := .val .push },
        Trace.env1) := by
  simp only [Travis.event_type, freshTravisState, _travis_event_type, hev,
    Option.getD, TravisEventType.ofString?]

/-- C1: in a push build where `git rev-parse start` resolves to a full
SHA and the local `git merge-base` of that SHA and `finish` equals the
SHA itself, `Travis.base` returns that SHA and no GitHub HTTP call is
made. -/
theorem base_push_local_merge_base (w : World)
    (slug start finish start_full : String)
    (hev : w.envm TRAVIS_EVENT_TYPE = some "push")
    (hslug : w.envm TRAVIS_SLUG = some slug)
    (hrange : _get_commit_range w.envm = .ok (start, finish))
    (hrev : w.revParse start = some start_full)
    (hmb : w.mergeBase start_full finish = some start_full) :
    (Travis.base w freshTravisState).1 = .ok start_full ∧
      (Travis.base w freshTravisState).2.2.http = [] := by
  rw [Travis.base]
  rw [event_type_fresh_push w hev]
  simp only [freshTravisState]
  simp only [Travis.slug, _travis_slug, hslug]
  simp only [_push_build_base, hrange, hrev, _verify_merge_base, hmb,
    if_pos rfl]
  simp [Trace.add, Trace.env1]

/-- C1 witness: a concrete push world whose commit-range start resolves
locally and is its own merge base with the finish commit. -/
theorem base_push_local_merge_base_wit :
    (Travis.base
        { envm := fun v =>
            if v = TRAVIS_EVENT_TYPE then some "push"
            else if v = TRAVIS_SLUG then some "org/repo"
            else if v = TRAVIS_RANGE then some "abcd...wxyz"
            else none
          revParse := fun r => if r = "abcd" then some "abcd" else none
          mergeBase := fun a b =>
            if a = "abcd" ∧ b = "wxyz" then some "abcd" else none
          mergeCommit := false
          commitSubject := ""
          compare := fun _ _ _ => .error (.httpError "unused") }
        freshTravisState).1 = .ok "abcd" ∧
      (Travis.base
        { envm := fun v =>
            if v = TRAVIS_EVENT_TYPE then some "push"
            else if v = TRAVIS_SLUG then some "org/repo"
            else if v = TRAVIS_RANGE then some "abcd...wxyz"
            else none
          revParse := fun r => if r = "abcd" then some "abcd" else none
          mergeBase := fun a b =>
            if a = "abcd" ∧ b = "wxyz" then some "abcd" else none
          mergeCommit := false
          commitSubject := ""
          compare := fun _ _ _ => .error (.httpError "unused") }
        freshTravisState).2.2.http = [] :=
  base_push_local_merge_base _ "org/repo" "abcd" "wxyz" "abcd"
    (by decide) (by decide) (by decide) (by decide) (by decide)

/-- C2: in a push build where `git rev-parse start` resolves to a full
SHA but the local merge base of that SHA and `finish` is anything other
than the SHA itself — a swallowed `git merge-base` failure included —
`Travis.base` raises the inconsistent-merge-base `ValueError`, with no
GitHub HTTP fallback. -/
theorem base_push_inconsistent_merge_base (w : World)
    (slug start finish start_full : String)
    (hev : w.envm TRAVIS_EVENT_TYPE = some "push")
    (hslug : w.envm TRAVIS_SLUG = some slug)
    (hrange : _get_commit_range w.envm = .ok (start, finish))
    (hrev : w.revParse start = some start_full)
    (hmb : w.mergeBase start_full finish ≠ some start_full) :
    (Travis.base w freshTravisState).1 =
        .error (.valueError "git merge base is not the start commit in range") ∧
      (Travis.base w freshTravisState).2.2.http = [] := by
  rw [Travis.base]
  rw [event_type_fresh_push w hev]
  simp only [freshTravisState]
  simp only [Travis.slug, _travis_slug, hslug]
  simp only [_push_build_base, hrange, hrev, _verify_merge_base,
    if_neg hmb]
  simp [Trace.add, Trace.env1]

/-- C2 witness: a concrete push world whose local merge-base probe
fails (swallowed to the absent sentinel) while rev-parse succeeds. -/
theorem base_push_inconsistent_merge_base_wit :
    (Travis.base
        { envm := fun v =>
            if v = TRAVIS_EVENT_TYPE then some "push"
            else if v = TRAVIS_SLUG then some "org/repo"
            else if v = TRAVIS_RANGE then some "abcd...wxyz"
            else none
          revParse := fun r => if r = "abcd" then some "abcd" else none
          mergeBase := fun _ _ => Option.none
          mergeCommit := false
          commitSubject := ""
          compare := fun _ _ _ => .error (.httpError "unused") }
        freshTravisState).1 =
      .error (.valueError "git merge base is not the start commit in range") ∧
      (Travis.base
        { envm := fun v =>
            if v = TRAVIS_EVENT_TYPE then some "push"
            else if v = TRAVIS_SLUG then some "org/repo"
            else if v = TRAVIS_RANGE then some "abcd...wxyz"
            else none
          revParse := fun r => if r = "abcd" then some "abcd" else none
          mergeBase := fun _ _ => Option.none
          mergeCommit := false
          commitSubject := ""
          compare := fun _ _ _ => .error (.httpError "unused") }
        freshTravisState).2.2.http = [] :=
  base_push_inconsistent_merge_base _ "org/repo" "abcd" "wxyz" "abcd"
    (by decide) (by decide) (by decide) (by decide) (by decide)

/-- C3: in a push build where `git rev-parse start` yields the absent
sentinel, the GitHub compare client is called exactly once with
`(slug, start, finish)` and no local merge-base probe runs; `base` is
the `merge_base_commit -> sha` field of a successful payload, a payload
missing that field raises the `KeyError`, and a failing HTTP call
propagates its error — in every case with no further call. -/
theorem base_push_remote_fallback (w : World)
    (slug start finish : String)
    (hev : w.envm TRAVIS_EVENT_TYPE = some "push")
    (hslug : w.envm TRAVIS_SLUG = some slug)
    (hrange : _get_commit_range w.envm = .ok (start, finish))
    (hrev : w.revParse start = none) :
    (Travis.base w freshTravisState).2.2.http = [(slug, start, finish)] ∧
      (Travis.base w freshTravisState).2.2.mergeBase = 0 ∧
      (∀ payload sha, w.compare slug start finish = .ok payload →
        payload.merge_base_commit_sha = some sha →
        (Travis.base w freshTravisState).1 = .ok sha) ∧
      (∀ payload, w.compare slug start finish = .ok payload →
        payload.merge_base_commit_sha = none →
        (Travis.base w freshTravisState).1 =
          .error (.keyError "Missing key in the GitHub API payload")) ∧
      (∀ e, w.compare slug start finish = .error e →
        (Travis.base w freshTravisState).1 = .error e) := by
  rw [Travis.base]
  rw [event_type_fresh_push w hev]
  simp only [freshTravisState]
  simp only [Travis.slug, _travis_slug, hslug]
  simp only [_push_build_base, hrange, hrev]
  refine ⟨?_, ?_, ?_, ?_, ?_⟩
  · rcases hg : _get_merge_base_from_github w slug start finish with e | v <;>
      simp [hg, Trace.add, Trace.env1]
  · rcases hg : _get_merge_base_from_github w slug start finish with e | v <;>
      simp [hg, Trace.add, Trace.env1]
  · intro payload sha hcomp hsha
    have hg : _get_merge_base_from_github w slug start finish = .ok sha := by
      rw [_get_merge_base_from_github, hcomp]
      simp [hsha]
    simp [hg]
  · intro payload hcomp hsha
    have hg : _get_merge_base_from_github w slug start finish =
        .error (.keyError "Missing key in the GitHub API payload") := by
      rw [_get_merge_base_from_github, hcomp]
      simp [hsha]
    simp [hg]
  · intro e hcomp
    have hg : _get_merge_base_from_github w slug start finish = .error e := by
      rw [_get_merge_base_from_github, hcomp]
    simp [hg]

/-- C3 witness: a concrete shallow-clone push world whose compare
payload carries the merge-base SHA. -/
theorem base_push_remote_fallback_wit :
    (Travis.base
        { envm := fun v =>
            if v = TRAVIS_EVENT_TYPE then some "push"
            else if v = TRAVIS_SLUG then some "org/repo"
            else if v = TRAVIS_RANGE then some "abcd...wxyz"
            else none
          revParse := fun _ => Option.none
          mergeBase := fun _ _ => Option.none
          mergeCommit := false
          commitSubject := ""
          compare := fun _ _ _ =>
            .ok { merge_base_commit_sha := some "f00d" } }
        freshTravisState).2.2.http = [("org/repo", "abcd", "wxyz")] ∧
      (Travis.base
        { envm := fun v =>
            if v = TRAVIS_EVENT_TYPE then some "push"
            else if v = TRAVIS_SLUG then some "org/repo"
            else if v = TRAVIS_RANGE then some "abcd...wxyz"
            else none
          revParse := fun _ => Option.none
          mergeBase := fun _ _ => Option.none
          mergeCommit := false
          commitSubject := ""
          compare := fun _ _ _ =>
            .ok { merge_base_commit_sha := some "f00d" } }
        freshTravisState).1 = .ok "f00d" :=
  ⟨(base_push_remote_fallback _ "org/repo" "abcd" "wxyz"
      (by decide) (by decide) (by decide) (by decide)).1,
    (base_push_remote_fallback _ "org/repo" "abcd" "wxyz"
      (by decide) (by decide) (by decide) (by decide)).2.2.1
      { merge_base_commit_sha := some "f00d" } "f00d" (by decide) (by decide)⟩

/-- C4: in a pull-request build, `Travis.base` is exactly the configured
branch, with no `git` subprocess call and no HTTP call: only the two
environment reads (event type, branch) are performed. -/
theorem base_pull_request_is_branch (w : World) (b : String)
    (hev : w.envm TRAVIS_EVENT_TYPE = some "pull_request")
    (hbr : w.envm TRAVIS_BRANCH = some b) :
    (Travis.base w freshTravisState).1 = .ok b ∧
      (Travis.base w freshTravisState).2.2 =
        { env := 2, revParse := 0, mergeBase := 0, mergeCommit := 0,
          subject := 0, http := [] } := by
  have hET : Travis.event_type w freshTravisState =
      (.ok .pull_request,
        { freshTravisState with _event_type := .val .pull_request },
        Trace.env1) := by
    simp only [Travis.event_type, freshTravisState, _travis_event_type, hev,
      Option.getD, TravisEventType.ofString?]
  rw [Travis.base]
  rw [hET]
  simp only [freshTravisState]
  simp only [Travis.branch, Config.branch, _ci_branch, hbr]
  simp [Trace.add, Trace.env1]

/-- C4 witness: a concrete pull-request world. -/
theorem base_pull_request_is_branch_wit :
    (Travis.base
        { envm := fun v =>
            if v = TRAVIS_EVENT_TYPE then some "pull_request"
            else if v = TRAVIS_BRANCH then some "master"
            else none
          revParse := fun _ => Option.none
          mergeBase := fun _ _ => Option.none
          mergeCommit := false
          commitSubject := ""
          compare := fun _ _ _ => .error (.httpError "unused") }
        freshTravisState).1 = .ok "master" ∧
      (Travis.base
        { envm := fun v =>
            if v = TRAVIS_EVENT_TYPE then some "pull_request"
            else if v = TRAVIS_BRANCH then some "master"
            else none
          revParse := fun _ => Option.none
          mergeBase := fun _ _ => Option.none
          mergeCommit := false
          commitSubject := ""
          compare := fun _ _ _ => .error (.httpError "unused") }
        freshTravisState).2.2 =
        { env := 2, revParse := 0, mergeBase := 0, mergeCommit := 0,
          subject := 0, http := [] } :=
  base_pull_request_is_branch _ "master" (by decide) (by decide)

/-- C5: whenever the diffbase slot is still unset and the resolved event
type is `api` or `cron`, accessing `Travis.base` raises
`NotImplementedError`; no diffbase is ever produced for those event
types. -/
theorem base_api_cron_unsupported (w : World) (s : TravisState)
    (et : TravisEventType)
    (hb : s._base = Cached.unset)
    (hET : (Travis.event_type w s).1 = .ok et)
    (het : et = TravisEventType.api ∨ et = TravisEventType.cron) :
    (Travis.base w s).1 = .error .notImplementedError := by
  rcases hE : Travis.event_type w s with ⟨r, s1, t1⟩
  rw [hE] at hET
  simp only at hET
  subst hET
  rw [Travis.base, hb, hE]
  rcases het with h | h <;> subst h <;> simp

/-- C5 witness: a concrete fresh api-build world and a concrete fresh
cron-build world. -/
theorem base_api_cron_unsupported_wit :
    (Travis.base
        { envm := fun v =>
            if v = TRAVIS_EVENT_TYPE then some "api" else none
          revParse := fun _ => Option.none
          mergeBase := fun _ _ => Option.none
          mergeCommit := false
          commitSubject := ""
          compare := fun _ _ _ => .error (.httpError "unused") }
        freshTravisState).1 = .error .notImplementedError ∧
      (Travis.base
        { envm := fun v =>
            if v = TRAVIS_EVENT_TYPE then some "cron" else none
          revParse := fun _ => Option.none
          mergeBase := fun _ _ => Option.none
          mergeCommit := false
          commitSubject := ""
          compare := fun _ _ _ => .error (.httpError "unused") }
        freshTravisState).1 = .error .notImplementedError :=
  ⟨base_api_cron_unsupported _ freshTravisState .api (by decide) (by decide)
      (Or.inl rfl),
    base_api_cron_unsupported _ freshTravisState .cron (by decide) (by decide)
      (Or.inr rfl)⟩

/-- C7: merged-PR extraction.  On a fresh object: in a push build with a
non-merge HEAD the result is `None` and the commit subject is never
fetched; with a merge HEAD the result is the integer of the unique
`#digits` reference of the subject, and `None` when the subject has zero
or at least two such references; in a pull-request build the result is
`None`; for an api or cron event type the access raises
`NotImplementedError`. -/
theorem merged_pr_spec (w : World) :
    (w.envm TRAVIS_EVENT_TYPE = some "push" → w.mergeCommit = false →
      (Travis.merged_pr w freshTravisState).1 = .ok none ∧
        (Travis.merged_pr w freshTravisState).2.2.subject = 0) ∧
    (∀ ds, w.envm TRAVIS_EVENT_TYPE = some "push" → w.mergeCommit = true →
      findPRrefs w.commitSubject.toList = [ds] →
      (Travis.merged_pr w freshTravisState).1 = .ok (some (digitsVal ds))) ∧
    (w.envm TRAVIS_EVENT_TYPE = some "push" → w.mergeCommit = true →
      (findPRrefs w.commitSubject.toList = [] ∨
        2 ≤ (findPRrefs w.commitSubject.toList).length) →
      (Travis.merged_pr w freshTravisState).1 = .ok none) ∧
    (w.envm TRAVIS_EVENT_TYPE = some "pull_request" →
      (Travis.merged_pr w freshTravisState).1 = .ok none) ∧
    ((w.envm TRAVIS_EVENT_TYPE = some "api" ∨
        w.envm TRAVIS_EVENT_TYPE = some "cron") →
      (Travis.merged_pr w freshTravisState).1 =
        .error .notImplementedError) := by
  refine ⟨?_, ?_, ?_, ?_, ?_⟩
  · intro hev hmc
    rw [Travis.merged_pr]
    rw [event_type_fresh_push w hev]
    simp [freshTravisState, hmc, Trace.add, Trace.env1]
  · intro ds hev hmc hrefs
    rw [Travis.merged_pr]
    rw [event_type_fresh_push w hev]
    simp only [freshTravisState]
    simp only [String.toList] at hrefs
    simp [hmc, pr_from_commit, String.toList, hrefs]
  · intro hev hmc hrefs
    rw [Travis.merged_pr]
    rw [event_type_fresh_push w hev]
    simp only [freshTravisState]
    have hnone : pr_from_commit w.commitSubject = none := by
      rw [pr_from_commit]
      rcases hrefs with h | h
      · rw [h]
      · rcases hl : findPRrefs w.commitSubject.toList with _ | ⟨a, _ | ⟨b, t⟩⟩
        · rfl
        · rw [hl] at h
          simp at h
        · rfl
    simp [hmc, hnone]
  · intro hev
    have hET : Travis.event_type w freshTravisState =
        (.ok .pull_request,
          { freshTravisState with _event_type := .val .pull_request },
          Trace.env1) := by
      simp only [Travis.event_type, freshTravisState, _travis_event_type, hev,
        Option.getD, TravisEventType.ofString?]
    rw [Travis.merged_pr]
    rw [hET]
    simp [freshTravisState]
  · intro hev
    rcases hev with hev | hev
    · have hET : Travis.event_type w freshTravisState =
          (.ok .api, { freshTravisState with _event_type := .val .api },
            Trace.env1) := by
        simp only [Travis.event_type, freshTravisState, _travis_event_type,
          hev, Option.getD, TravisEventType.ofString?]
      rw [Travis.merged_pr]
      rw [hET]
      simp [freshTravisState]
    · have hET : Travis.event_type w freshTravisState =
          (.ok .cron, { freshTravisState with _event_type := .val .cron },
            Trace.env1) := by
        simp only [Travis.event_type, freshTravisState, _travis_event_type,
          hev, Option.getD, TravisEventType.ofString?]
      rw [Travis.merged_pr]
      rw [hET]
      simp [freshTravisState]

/-- C7 witness: a concrete push world whose merge HEAD subject carries
exactly one PR reference, 1355. -/
theorem merged_pr_spec_wit :
    (Travis.merged_pr
        { envm := fun v =>
            if v = TRAVIS_EVENT_TYPE then some "push" else none
          revParse := fun _ => Option.none
          mergeBase := fun _ _ => Option.none
          mergeCommit := true
          commitSubject := "Merge pull request #1355 from org/repo"
          compare := fun _ _ _ => .error (.httpError "unused") }
        freshTravisState).1 = .ok (some 1355) :=
  (merged_pr_spec _).2.1 ['1', '3', '5', '5'] (by decide) (by decide)
    (by decide)

theorem idem_active (w : World) (s : TravisState) (v : Bool)
    (s1 : TravisState) (t : Trace) (h : Travis.active w s = (.ok v, s1, t)) :
    Travis.active w s1 = (.ok v, s1, Trace.none) := by
  rw [Travis.active, Config.active] at h
  cases hs : s._active with
  | val v0 =>
    rw [hs] at h
    simp only [Prod.mk.injEq, Except.ok.injEq] at h
    obtain ⟨hv, hs1, ht⟩ := h
    subst hv
    subst hs1
    rw [Travis.active, Config.active, hs]
  | unset =>
    rw [hs] at h
    simp only [Prod.mk.injEq, Except.ok.injEq] at h
    obtain ⟨hv, hs1, ht⟩ := h
    subst hv
    subst hs1
    rw [Travis.active, Config.active]

theorem idem_branch (w : World) (s : TravisState) (v : String)
    (s1 : TravisState) (t : Trace) (h : Travis.branch w s = (.ok v, s1, t)) :
    Travis.branch w s1 = (.ok v, s1, Trace.none) := by
  rw [Travis.branch, Config.branch] at h
  cases hs : s._branch with
  | val v0 =>
    rw [hs] at h
    simp only [Prod.mk.injEq, Except.ok.injEq] at h
    obtain ⟨hv, hs1, ht⟩ := h
    subst hv
    subst hs1
    rw [Travis.branch, Config.branch, hs]
  | unset =>
    rw [hs] at h
    cases hcb : _ci_branch w.envm TRAVIS_BRANCH with
    | error e => rw [hcb] at h; simp at h
    | ok b =>
      rw [hcb] at h
      simp only [Prod.mk.injEq, Except.ok.injEq] at h
      obtain ⟨hv, hs1, ht⟩ := h
      subst hv
      subst hs1
      rw [Travis.branch, Config.branch]

theorem idem_is_merge (w : World) (s : TravisState) (v : Bool)
    (s1 : TravisState) (t : Trace) (h : Travis.is_merge w s = (.ok v, s1, t)) :
    Travis.is_merge w s1 = (.ok v, s1, Trace.none) := by
  rw [Travis.is_merge, Config.is_merge] at h
  cases hs : s._is_merge with
  | val v0 =>
    rw [hs] at h
    simp only [Prod.mk.injEq, Except.ok.injEq] at h
    obtain ⟨hv, hs1, ht⟩ := h
    subst hv
    subst hs1
    rw [Travis.is_merge, Config.is_merge, hs]
  | unset =>
    rw [hs] at h
    simp only [Prod.mk.injEq, Except.ok.injEq] at h
    obtain ⟨hv, hs1, ht⟩ := h
    subst hv
    subst hs1
    rw [Travis.is_merge, Config.is_merge]

theorem idem_tag (w : World) (s : TravisState) (v : Option String)
    (s1 : TravisState) (t : Trace) (h : Travis.tag w s = (.ok v, s1, t)) :
    Travis.tag w s1 = (.ok v, s1, Trace.none) := by
  rw [Travis.tag, Config.tag] at h
  cases hs : s._tag with
  | val v0 =>
    rw [hs] at h
    simp only [Prod.mk.injEq, Except.ok.injEq] at h
    obtain ⟨hv, hs1, ht⟩ := h
    subst hv
    subst hs1
    rw [Travis.tag, Config.tag, hs]
  | unset =>
    rw [hs] at h
    simp only [Prod.mk.injEq, Except.ok.injEq] at h
    obtain ⟨hv, hs1, ht⟩ := h
    subst hv
    subst hs1
    rw [Travis.tag, Config.tag]

theorem idem_event_type (w : World) (s : TravisState) (v : TravisEventType)
    (s1 : TravisState) (t : Trace)
    (h : Travis.event_type w s = (.ok v, s1, t)) :
    Travis.event_type w s1 = (.ok v, s1, Trace.none) := by
  rw [Travis.event_type] at h
  cases hs : s._event_type with
  | val v0 =>
    rw [hs] at h
    simp only [Prod.mk.injEq, Except.ok.injEq] at h
    obtain ⟨hv, hs1, ht⟩ := h
    subst hv
    subst hs1
    rw [Travis.event_type, hs]
  | unset =>
    rw [hs] at h
    cases he : _travis_event_type w.envm with
    | error e => rw [he] at h; simp at h
    | ok et =>
      rw [he] at h
      simp only [Prod.mk.injEq, Except.ok.injEq] at h
      obtain ⟨hv, hs1, ht⟩ := h
      subst hv
      subst hs1
      rw [Travis.event_type]

theorem idem_pr (w : World) (s : TravisState) (v : Option Int)
    (s1 : TravisState) (t : Trace) (h : Travis.pr w s = (.ok v, s1, t)) :
    Travis.pr w s1 = (.ok v, s1, Trace.none) := by
  rw [Travis.pr] at h
  cases hs : s._pr with
  | val v0 =>
    rw [hs] at h
    simp only [Prod.mk.injEq, Except.ok.injEq] at h
    obtain ⟨hv, hs1, ht⟩ := h
    subst hv
    subst hs1
    rw [Travis.pr, hs]
  | unset =>
    rw [hs] at h
    simp only [Prod.mk.injEq, Except.ok.injEq] at h
    obtain ⟨hv, hs1, ht⟩ := h
    subst hv
    subst hs1
    rw [Travis.pr]

theorem idem_slug (w : World) (s : TravisState) (v : String)
    (s1 : TravisState) (t : Trace) (h : Travis.slug w s = (.ok v, s1, t)) :
    Travis.slug w s1 = (.ok v, s1, Trace.none) := by
  rw [Travis.slug] at h
  cases hs : s._slug with
  | val v0 =>
    rw [hs] at h
    simp only [Prod.mk.injEq, Except.ok.injEq] at h
    obtain ⟨hv, hs1, ht⟩ := h
    subst hv
    subst hs1
    rw [Travis.slug, hs]
  | unset =>
    rw [hs] at h
    cases he : _travis_slug w.envm with
    | error e => rw [he] at h; simp at h
    | ok sl =>
      rw [he] at h
      simp only [Prod.mk.injEq, Except.ok.injEq] at h
      obtain ⟨hv, hs1, ht⟩ := h
      subst hv
      subst hs1
      rw [Travis.slug]

theorem idem_base (w : World) (s : TravisState) (v : String)
    (s1 : TravisState) (t : Trace) (h : Travis.base w s = (.ok v, s1, t)) :
    Travis.base w s1 = (.ok v, s1, Trace.none) := by
  rw [Travis.base] at h
  cases hs : s._base with
  | val v0 =>
    rw [hs] at h
    simp only [Prod.mk.injEq, Except.ok.injEq] at h
    obtain ⟨hv, hs1, ht⟩ := h
    subst hv
    subst hs1
    rw [Travis.base, hs]
  | unset =>
    rw [hs] at h
    rcases hET : Travis.event_type w s with ⟨r, sA, tA⟩
    rw [hET] at h
    cases r with
    | error e => simp at h
    | ok et =>
      cases et with
      | pull_request =>
        simp only [reduceIte] at h
        rcases hB : Travis.branch w sA with ⟨rb, sB, tB⟩
        rw [hB] at h
        cases rb with
        | error e => simp at h
        | ok b =>
          simp only [Prod.mk.injEq, Except.ok.injEq] at h
          obtain ⟨hv, hs1, ht⟩ := h
          subst hv
          subst hs1
          rw [Travis.base]
      | push =>
        simp only [reduceIte] at h
        rw [if_neg (show ¬(TravisEventType.push = TravisEventType.pull_request)
          from by decide)] at h
        rcases hS : Travis.slug w sA with ⟨rs, sB, tB⟩
        rw [hS] at h
        cases rs with
        | error e => simp at h
        | ok slug =>
          rcases hP : _push_build_base w slug with ⟨rp, tP⟩
          cases rp with
          | error e => simp [hP] at h
          | ok b =>
            simp only [hP, Prod.mk.injEq, Except.ok.injEq] at h
            obtain ⟨hv, hs1, ht⟩ := h
            subst hv
            subst hs1
            rw [Travis.base]
      | api =>
        simp only [reduceIte] at h
        rw [if_neg (show ¬(TravisEventType.api = TravisEventType.pull_request)
            from by decide),
          if_neg (show ¬(TravisEventType.api = TravisEventType.push)
            from by decide)] at h
        simp at h
      | cron =>
        simp only [reduceIte] at h
        rw [if_neg (show ¬(TravisEventType.cron = TravisEventType.pull_request)
            from by decide),
          if_neg (show ¬(TravisEventType.cron = TravisEventType.push)
            from by decide)] at h
        simp at h

theorem idem_merged_pr (w : World) (s : TravisState) (v : Option Nat)
    (s1 : TravisState) (t : Trace)
    (h : Travis.merged_pr w s = (.ok v, s1, t)) :
    Travis.merged_pr w s1 = (.ok v, s1, Trace.none) := by
  rw [Travis.merged_pr] at h
  cases hs : s._merged_pr with
  | val v0 =>
    rw [hs] at h
    simp only [Prod.mk.injEq, Except.ok.injEq] at h
    obtain ⟨hv, hs1, ht⟩ := h
    subst hv
    subst hs1
    rw [Travis.merged_pr, hs]
  | unset =>
    rw [hs] at h
    rcases hET : Travis.event_type w s with ⟨r, sA, tA⟩
    rw [hET] at h
    cases r with
    | error e => simp at h
    | ok et =>
      cases et with
      | pull_request =>
        simp only [reduceIte] at h
        simp only [Prod.mk.injEq, Except.ok.injEq] at h
        obtain ⟨hv, hs1, ht⟩ := h
        subst hv
        subst hs1
        rw [Travis.merged_pr]
      | push =>
        simp only [reduceIte] at h
        rw [if_neg (show ¬(TravisEventType.push = TravisEventType.pull_request)
          from by decide)] at h
        cases hmc : w.mergeCommit with
        | true =>
          rw [hmc, if_pos rfl] at h
          simp only [Prod.mk.injEq, Except.ok.injEq] at h
          obtain ⟨hv, hs1, ht⟩ := h
          subst hv
          subst hs1
          rw [Travis.merged_pr]
        | false =>
          rw [hmc, if_neg (show ¬(false = true) from by decide)] at h
          simp only [Prod.mk.injEq, Except.ok.injEq] at h
          obtain ⟨hv, hs1, ht⟩ := h
          subst hv
          subst hs1
          rw [Travis.merged_pr]
      | api =>
        simp only [reduceIte] at h
        rw [if_neg (show ¬(TravisEventType.api = TravisEventType.pull_request)
            from by decide),
          if_neg (show ¬(TravisEventType.api = TravisEventType.push)
            from by decide)] at h
        simp at h
      | cron =>
        simp only [reduceIte] at h
        rw [if_neg (show ¬(TravisEventType.cron = TravisEventType.pull_request)
            from by decide),
          if_neg (show ¬(TravisEventType.cron = TravisEventType.push)
            from by decide)] at h
        simp at h

/-- C8: memoized-field idempotence.  For each of the nine cached fields
(`active`, `branch`, `tag`, `is_merge`, `event_type`, `pr`, `slug`,
`base`, `merged_pr`), a successful first access leaves the object in a
state from which a second access returns the identical value, changes no
field, and performs no environment read, no subprocess call and no HTTP
call; the slot moves from the `UNSET` sentinel to a value at most once
and is never reset. -/
theorem cached_fields_idempotent :
    (∀ (w : World) (s : TravisState) (v : Bool) (s1 : TravisState)
      (t : Trace), Travis.active w s = (.ok v, s1, t) →
        Travis.active w s1 = (.ok v, s1, Trace.none)) ∧
    (∀ (w : World) (s : TravisState) (v : String) (s1 : TravisState)
      (t : Trace), Travis.branch w s = (.ok v, s1, t) →
        Travis.branch w s1 = (.ok v, s1, Trace.none)) ∧
    (∀ (w : World) (s : TravisState) (v : Option String) (s1 : TravisState)
      (t : Trace), Travis.tag w s = (.ok v, s1, t) →
        Travis.tag w s1 = (.ok v, s1, Trace.none)) ∧
    (∀ (w : World) (s : TravisState) (v : Bool) (s1 : TravisState)
      (t : Trace), Travis.is_merge w s = (.ok v, s1, t) →
        Travis.is_merge w s1 = (.ok v, s1, Trace.none)) ∧
    (∀ (w : World) (s : TravisState) (v : TravisEventType) (s1 : TravisState)
      (t : Trace), Travis.event_type w s = (.ok v, s1, t) →
        Travis.event_type w s1 = (.ok v, s1, Trace.none)) ∧
    (∀ (w : World) (s : TravisState) (v : Option Int) (s1 : TravisState)
      (t : Trace), Travis.pr w s = (.ok v, s1, t) →
        Travis.pr w s1 = (.ok v, s1, Trace.none)) ∧
    (∀ (w : World) (s : TravisState) (v : String) (s1 : TravisState)
      (t : Trace), Travis.slug w s = (.ok v, s1, t) →
        Travis.slug w s1 = (.ok v, s1, Trace.none)) ∧
    (∀ (w : World) (s : TravisState) (v : String) (s1 : TravisState)
      (t : Trace), Travis.base w s = (.ok v, s1, t) →
        Travis.base w s1 = (.ok v, s1, Trace.none)) ∧
    (∀ (w : World) (s : TravisState) (v : Option Nat) (s1 : TravisState)
      (t : Trace), Travis.merged_pr w s = (.ok v, s1, t) →
        Travis.merged_pr w s1 = (.ok v, s1, Trace.none)) :=
  ⟨idem_active, idem_branch, idem_tag, idem_is_merge, idem_event_type,
    idem_pr, idem_slug, idem_base, idem_merged_pr⟩

/-- C8 witness: the `base` conjunct applied to a concrete pull-request
world; the second access of `base` is effect-free and value-identical. -/
theorem cached_fields_idempotent_wit :
    Travis.base
        { envm := fun v =>
            if v = TRAVIS_EVENT_TYPE then some "pull_request"
            else if v = TRAVIS_BRANCH then some "master"
            else none
          revParse := fun _ => Option.none
          mergeBase := fun _ _ => Option.none
          mergeCommit := false
          commitSubject := ""
          compare := fun _ _ _ => .error (.httpError "unused") }
        { _base := Cached.val "master",
          _event_type := Cached.val TravisEventType.pull_request,
          _branch := Cached.val "master" } =
      (.ok "master",
        { _base := Cached.val "master",
          _event_type := Cached.val TravisEventType.pull_request,
          _branch := Cached.val "master" },
        Trace.none) :=
  cached_fields_idempotent.2.2.2.2.2.2.2.1
    { envm := fun v =>
        if v = TRAVIS_EVENT_TYPE then some "pull_request"
        else if v = TRAVIS_BRANCH then some "master"
        else none
      revParse := fun _ => Option.none
      mergeBase := fun _ _ => Option.none
      mergeCommit := false
      commitSubject := ""
      compare := fun _ _ _ => .error (.httpError "unused") }
    freshTravisState "master"
    { _base := Cached.val "master",
      _event_type := Cached.val TravisEventType.pull_request,
      _branch := Cached.val "master" }
    { env := 2 } (by decide)

/-- C10: `get_config` filters the three freshly constructed provider
configurations (AppVeyor, CircleCI, Travis, in construction order) by
their `active` flag: when the flag list has exactly one active provider
the result is that provider, and whenever the number of active providers
is not one — zero or several — it raises `OSError`. -/
theorem get_config_spec (w : World) :
    (∀ k : ProviderKind,
      (get_config w = .ok k ↔
        ([ProviderKind.appveyor, ProviderKind.circleci,
          ProviderKind.travis].filter
            (fun k2 => _in_ci w.envm (activeEnvVar k2))) = [k])) ∧
    (([ProviderKind.appveyor, ProviderKind.circleci,
        ProviderKind.travis].filter
          (fun k2 => _in_ci w.envm (activeEnvVar k2))).length ≠ 1 →
      get_config w = .error (.osError "Could not find unique environment")) := by
  cases hA : _in_ci w.envm (activeEnvVar ProviderKind.appveyor) <;>
    cases hC : _in_ci w.envm (activeEnvVar ProviderKind.circleci) <;>
      cases hT : _in_ci w.envm (activeEnvVar ProviderKind.travis) <;>
        constructor <;>
          first
            | (intro k; cases k <;> simp [get_config, hA, hC, hT])
            | (intro hlen; simp [get_config, hA, hC, hT] at hlen ⊢)

/-- C10 witness: the characterization applied to a world in which only
Travis is active, and to a world in which no provider is active. -/
theorem get_config_spec_wit :
    get_config
        { envm := fun v => if v = IN_TRAVIS then some "true" else none
          revParse := fun _ => Option.none
          mergeBase := fun _ _ => Option.none
          mergeCommit := false
          commitSubject := ""
          compare := fun _ _ _ => .error (.httpError "unused") } =
      .ok ProviderKind.travis ∧
    get_config
        { envm := fun _ => Option.none
          revParse := fun _ => Option.none
          mergeBase := fun _ _ => Option.none
          mergeCommit := false
          commitSubject := ""
          compare := fun _ _ _ => .error (.httpError "unused") } =
      .error (.osError "Could not find unique environment") :=
  ⟨((get_config_spec
      { envm := fun v => if v = IN_TRAVIS then some "true" else none
        revParse := fun _ => Option.none
        mergeBase := fun _ _ => Option.none
        mergeCommit := false
        commitSubject := ""
        compare := fun _ _ _ => .error (.httpError "unused") }).1
      ProviderKind.travis).mpr (by decide),
    (get_config_spec
      { envm := fun _ => Option.none
        revParse := fun _ => Option.none
        mergeBase := fun _ _ => Option.none
        mergeCommit := false
        commitSubject := ""
        compare := fun _ _ _ => .error (.httpError "unused") }).2
      (by decide)⟩
